import Mathlib

/-!
Verification development for `inverse_projections/get_datasets.py`: the
dataset acquisition-and-verification lifecycle (download, SHA-256 integrity
check, per-dataset transformation) of the pointctl data script.

Modelling conventions:
  * bytes are `List Nat` (each entry a byte value); file paths are `String`;
    the filesystem is a partial map from paths to byte contents;
  * `hashlib.sha256(...).hexdigest()` is embedded as a full executable
    SHA-256 over byte lists producing the lowercase hex string;
  * the network is a function from a url to the streamed GET response
    (optional Content-Length header plus body bytes);
  * a Python call either returns, raises (`Outcome.error`), or calls
    `exit(1)` (`Outcome.exited 1`); each modelled call also yields the
    chronological list of its observable events (prints, network requests,
    file writes, hash comparisons);
  * `verify_downloaded` and `check_hash` read the module-global loop
    variable `dataset`, not `self`; the embedding therefore passes the
    receiver `self` and the global record `g` separately, and
    `Dataset.processMain` is the main-loop invocation where the two
    coincide;
  * dataframes are embedded at parsed-table level: a raw record file is a
    list of typed rows, `pandas.read_csv` without `header=None` consumes
    the first row as the header line, `MinMaxScaler.fit_transform` acts
    column-wise on rationals, `get_dummies` expands a string column into
    indicator columns named `<col>_<value>` over the sorted distinct
    values, and the written clean table is its header names plus columns.
-/

/-- Reduce a natural number modulo 2^32, the word size of SHA-256. -/
def w32 (n : Nat) : Nat := n % 4294967296

/-- Right rotation of a 32-bit word. -/
def rotr32 (x n : Nat) : Nat := w32 ((x >>> n) ||| (x <<< (32 - n)))

def bsig0 (x : Nat) : Nat := rotr32 x 2 ^^^ rotr32 x 13 ^^^ rotr32 x 22

def bsig1 (x : Nat) : Nat := rotr32 x 6 ^^^ rotr32 x 11 ^^^ rotr32 x 25

def ssig0 (x : Nat) : Nat := rotr32 x 7 ^^^ rotr32 x 18 ^^^ (x >>> 3)

def ssig1 (x : Nat) : Nat := rotr32 x 17 ^^^ rotr32 x 19 ^^^ (x >>> 10)

def chf (x y z : Nat) : Nat := (x &&& y) ^^^ ((x ^^^ 4294967295) &&& z)

def majf (x y z : Nat) : Nat := (x &&& y) ^^^ (x &&& z) ^^^ (y &&& z)

/-- The 64 SHA-256 round constants of FIPS 180-4 (decimal). -/
def shaK : List Nat :=
  [1116352408, 1899447441, 3049323471, 3921009573, 961987163, 1508970993,
   2453635748, 2870763221, 3624381080, 310598401, 607225278, 1426881987,
   1925078388, 2162078206, 2614888103, 3248222580, 3835390401, 4022224774,
   264347078, 604807628, 770255983, 1249150122, 1555081692, 1996064986,
   2554220882, 2821834349, 2952996808, 3210313671, 3336571891, 3584528711,
   113926993, 338241895, 666307205, 773529912, 1294757372, 1396182291,
   1695183700, 1986661051, 2177026350, 2456956037, 2730485921, 2820302411,
   3259730800, 3345764771, 3516065817, 3600352804, 4094571909, 275423344,
   430227734, 506948616, 659060556, 883997877, 958139571, 1322822218,
   1537002063, 1747873779, 1955562222, 2024104815, 2227730452, 2361852424,
   2428436474, 2756734187, 3204031479, 3329325298]

/-- The initial SHA-256 state words of FIPS 180-4 (decimal). -/
def shaH0 : List Nat :=
  [1779033703, 3144134277, 1013904242, 2773480762,
   1359893119, 2600822924, 528734635, 1541459225]

/-- Big-endian 8-byte encoding of the message bit length. -/
def beBytes8 (n : Nat) : List Nat :=
  [56, 48, 40, 32, 24, 16, 8, 0].map (fun s => (n >>> s) % 256)

/-- SHA-256 padding: a 0x80 byte, zeros up to 56 mod 64, then the 64-bit
big-endian bit length. -/
def padMessage (msg : List Nat) : List Nat :=
  msg ++ [0x80] ++ List.replicate ((119 - msg.length % 64) % 64) 0 ++ beBytes8 (8 * msg.length)

/-- Split a list into chunks of `n` elements (fuel-driven structural version). -/
def chunksGo (n : Nat) : Nat → List α → List (List α)
  | 0, _ => []
  | _, [] => []
  | Nat.succ fuel, l => l.take n :: chunksGo n fuel (l.drop n)

def chunks (n : Nat) (l : List α) : List (List α) := chunksGo n l.length l

/-- Four big-endian bytes to one 32-bit word. -/
def bytesToWords : List Nat → List Nat
  | b0 :: b1 :: b2 :: b3 :: rest => (((b0 * 256 + b1) * 256 + b2) * 256 + b3) :: bytesToWords rest
  | _ => []

/-- Extend the 16-word block to the 64-word message schedule. -/
def extendSchedule : Nat → List Nat → List Nat
  | 0, ws => ws
  | Nat.succ n, ws =>
      let i := ws.length
      extendSchedule n (ws ++ [w32 (ssig1 (ws.getD (i - 2) 0) + ws.getD (i - 7) 0 +
        ssig0 (ws.getD (i - 15) 0) + ws.getD (i - 16) 0)])

/-- One round of the SHA-256 compression function over the 8-word state. -/
def shaRound (st : List Nat) (kw : Nat × Nat) : List Nat :=
  match st with
  | [a, b, c, d, e, f, g, h] =>
      let t1 := w32 (h + bsig1 e + chf e f g + kw.1 + kw.2)
      let t2 := w32 (bsig0 a + majf a b c)
      [w32 (t1 + t2), a, b, c, w32 (d + t1), e, f, g]
  | other => other

/-- Compress one 64-byte block into the running state. -/
def compressBlock (st : List Nat) (block : List Nat) : List Nat :=
  let ws := extendSchedule 48 (bytesToWords block)
  let st2 := (shaK.zip ws).foldl shaRound st
  List.zipWith (fun x y => w32 (x + y)) st st2

/-- SHA-256 of a byte list, as the eight 32-bit state words. -/
def sha256 (msg : List Nat) : List Nat :=
  (chunks 64 (padMessage msg)).foldl compressBlock shaH0

/-- Lowercase hex digit. -/
def hexChar (n : Nat) : Char := if n < 10 then Char.ofNat (48 + n) else Char.ofNat (87 + n)

/-- The eight hex characters of one 32-bit word, most significant first. -/
def wordHex (w : Nat) : List Char :=
  [28, 24, 20, 16, 12, 8, 4, 0].map (fun s => hexChar ((w >>> s) % 16))

/-- Model of `hashlib.sha256(data).hexdigest()`: the lowercase hex digest of
the 256-bit hash of the byte content. -/
def sha256hex (msg : List Nat) : String :=
  String.mk ((sha256 msg).map wordHex).flatten

/-- IntegrityChecker `digest_of`: the digest of a file identified by its byte
content (line 305 of the source, `hashlib.sha256(f.read()).hexdigest()`). -/
def digest_of (content : List Nat) : String := sha256hex content

/-- IntegrityChecker `matches`: line 306 compares `file_hash != self.hash`;
`matches` is the positive form of the very same string comparison. -/
def «matches» (content : List Nat) (expected : String) : Bool :=
  digest_of content == expected

/-- Observable events of one run, in chronological order. -/
inductive Event where
  | printed (msg : String)
  | download (url : String)
  | wroteRaw (path : String)
  | hashChecked (ok : Bool)
  | wroteClean (path : String)
  deriving DecidableEq, Repr

/-- Outcome of a call: normal return, `exit(code)`, or an uncaught exception. -/
inductive Outcome where
  | ok
  | exited (code : Nat)
  | error (msg : String)
  deriving DecidableEq, Repr

/-- The local filesystem: the byte content stored at each path, `none` when
the path holds no file. -/
def Fs : Type := String → Option (List Nat)

/-- A streaming GET response: the Content-Length header, if the server sent
one, and the body bytes. -/
structure HttpResponse where
  contentLength : Option Nat
  body : List Nat

/-- The `Dataset` dataclass of the source: catalog name, source url, pinned
sha256 hexdigest, raw and clean file locations, and the bound processing
function (treated here as an opaque byte transformation, since `process`
itself only hands it the two paths). -/
structure Dataset where
  name : String
  url : String
  hash : String
  raw_file_path : String
  clean_file_path : String
  processing_function : List Nat → List Nat

/-- The f-string printed by `check_hash` on a digest mismatch; it interpolates
the module-global `dataset.url`. -/
def hashMismatchMsg (url : String) : String :=
  "The file hosted as " ++ url ++ " has an unexpected hash.\nPlease manually check if the processing is still correct"

/-- The message printed by `verify_downloaded` before downloading; it
interpolates the module-global `dataset.name`. -/
def missingMsg (name : String) : String :=
  "Source file for " ++ name ++ " is missing, downloading it"

/-- Dataset.check_hash (lines 299-311): hash the bytes at `self.raw_file_path`;
when the digest differs from `self.hash`, print a diagnostic naming the
module-global record's url and `exit(1)`. `g` is the module-global `dataset`. -/
def Dataset.check_hash (self g : Dataset) (fs : Fs) : Outcome × Fs × List Event :=
  match fs self.raw_file_path with
  | none => (.error "FileNotFoundError", fs, [])
  | some content =>
      if sha256hex content ≠ self.hash then
        (.exited 1, fs, [.hashChecked false, .printed (hashMismatchMsg g.url)])
      else
        (.ok, fs, [.hashChecked true])

/-- Dataset.download_file (lines 270-297): streaming GET of `self.url`;
`int(r.headers.get("Content-Length"))` raises TypeError when the header is
absent, before the destination is opened; otherwise the body is written to
`self.raw_file_path` chunk by chunk and `check_hash` runs. Directory creation
has no observable effect in this model. -/
def Dataset.download_file (self g : Dataset) (fs : Fs) (http : String → HttpResponse) :
    Outcome × Fs × List Event :=
  let r := http self.url
  match r.contentLength with
  | none => (.error "TypeError", fs, [.download self.url])
  | some _ =>
      let fs2 : Fs := fun p => if p = self.raw_file_path then some r.body else fs p
      let res := Dataset.check_hash self g fs2
      (res.1, res.2.1, .download self.url :: .wroteRaw self.raw_file_path :: res.2.2)

/-- Dataset.verify_downloaded (lines 262-268): the existence test and the
print read the module-global `dataset` (`g`); the download itself is invoked
on `self`. -/
def Dataset.verify_downloaded (self g : Dataset) (fs : Fs) (http : String → HttpResponse) :
    Outcome × Fs × List Event :=
  match fs g.raw_file_path with
  | some _ => (.ok, fs, [])
  | none =>
      let res := Dataset.download_file self g fs http
      (res.1, res.2.1, .printed (missingMsg g.name) :: res.2.2)

/-- Dataset.process (lines 313-318): verify_downloaded, then the processing
function, which reads `self.raw_file_path` and writes `self.clean_file_path`
unconditionally. An `exit(1)` or exception below propagates and nothing
further runs. -/
def Dataset.process (self g : Dataset) (fs : Fs) (http : String → HttpResponse) :
    Outcome × Fs × List Event :=
  let res := Dataset.verify_downloaded self g fs http
  match res.1 with
  | .ok =>
      match res.2.1 self.raw_file_path with
      | none => (.error "FileNotFoundError", res.2.1, res.2.2)
      | some content =>
          (.ok, fun p => if p = self.clean_file_path then some (self.processing_function content)
                         else res.2.1 p,
           res.2.2 ++ [.wroteClean self.clean_file_path])
  | o => (o, res.2.1, res.2.2)

/-- The main loop (lines 418-420) binds the module-global `dataset` to the
record being processed, so there the receiver and the global coincide. -/
def Dataset.processMain (d : Dataset) (fs : Fs) (http : String → HttpResponse) :
    Outcome × Fs × List Event :=
  Dataset.process d d fs http

/-- Checks that every clean-file write in a trace comes after a successful
hash confirmation (`seen` records whether one has occurred so far). -/
def okTrace (seen : Bool) : List Event → Bool
  | [] => true
  | Event.wroteClean _ :: rest => seen && okTrace seen rest
  | Event.hashChecked true :: rest => okTrace true rest
  | _ :: rest => okTrace seen rest

/-- A concrete catalog-style record used to instantiate the lifecycle
theorems (the pinned hash is the catalog's banknote digest). -/
def demoDataset : Dataset :=
  { name := "banknote"
    url := "https://archive.ics.uci.edu/ml/machine-learning-databases/00267/data_banknote_authentication.txt"
    hash := "d0539aaed2139ba7a587b3e34fb345ce503ff7d5d33dbf9912d8e195ce425cb9"
    raw_file_path := "../data/banknote/raw/data_banknote_authentication.txt"
    clean_file_path := "../data/banknote/banknote.csv"
    processing_function := fun bytes => bytes }

/-- A second record, used as the module-global binding in the aliasing
scenarios of claim C10. -/
def otherDataset : Dataset :=
  { name := "abalone"
    url := "https://archive.ics.uci.edu/ml/machine-learning-databases/abalone/abalone.data"
    hash := "de37cdcdcaaa50c309d514f248f7c2302a5f1f88c168905eba23fe2fbc78449f"
    raw_file_path := "../data/abalone/raw/abalone.data"
    clean_file_path := "../data/abalone/abalone.csv"
    processing_function := fun bytes => bytes }

/-- A filesystem holding only the demo record's raw file. -/
def fsWithRaw : Fs :=
  fun p => if p = "../data/banknote/raw/data_banknote_authentication.txt" then some [1, 2, 3] else none

/-- The empty filesystem. -/
def fsEmpty : Fs := fun _ => none

/-- A server that always answers with a sized 3-byte body. -/
def httpOk : String → HttpResponse := fun _ => { contentLength := some 3, body := [1, 2, 3] }

/-- A server that streams a body but omits the Content-Length header. -/
def httpNoLength : String → HttpResponse := fun _ => { contentLength := none, body := [1, 2, 3] }

/-- Smallest element of a column (numpy `min(axis=0)` on a nonempty column;
the default 0 for an empty column is never relevant to the properties). -/
def colMin : List ℚ → ℚ
  | [] => 0
  | x :: xs => xs.foldl min x

/-- Largest element of a column (numpy `max(axis=0)`). -/
def colMax : List ℚ → ℚ
  | [] => 0
  | x :: xs => xs.foldl max x

/-- Model of `MinMaxScaler().fit_transform` on one column: subtract the column
minimum and multiply by 1/(max - min), a zero range being replaced by a unit
scale (sklearn's `_handle_zeros_in_scale`, which sends a constant column to 0). -/
def minmaxScale (col : List ℚ) : List ℚ :=
  col.map (fun x => (x - colMin col) *
    (if colMax col = colMin col then 1 else (colMax col - colMin col)⁻¹))

/-- First-occurrence distinct values of a list (`seen` accumulates). -/
def uniqAux [DecidableEq α] : List α → List α → List α
  | _, [] => []
  | seen, x :: xs => if x ∈ seen then uniqAux seen xs else x :: uniqAux (x :: seen) xs

def uniq [DecidableEq α] (l : List α) : List α := uniqAux [] l

/-- The category values `pandas.get_dummies` expands a string column into:
its distinct values in sorted order. -/
def dummyVals (l : List String) : List String :=
  List.insertionSort (fun a b => a ≤ b) (uniq l)

/-- Model of `sklearn.preprocessing.LabelEncoder().fit_transform`: each label
becomes its index in the sorted list of distinct labels. -/
def labelEncode (ys : List ℚ) : List ℚ :=
  ys.map (fun v => ((List.insertionSort (fun a b => a ≤ b) (uniq ys)).indexOf v : ℚ))

/-- A written clean table: the header names and the columns beneath them
(the label column `y` included, as the last entry of both lists). -/
structure CleanTable where
  names : List String
  cols : List (List ℚ)

/-- The shared tail of every processing function: min-max scale the feature
columns, then append the label under the name `y` (`X["y"] = y` places it
last) and write the `;`-separated table. -/
def buildClean (feats : List (String × List ℚ)) (y : List ℚ) : CleanTable :=
  { names := feats.map Prod.fst ++ ["y"]
    cols := feats.map (fun p => minmaxScale p.2) ++ [y] }

/-- A column taking at least two different values. -/
def nonConstant (col : List ℚ) : Prop := ∃ a ∈ col, ∃ b ∈ col, a ≠ b

/-- The clean-output contract of the spec: the last column, and only it, is
named `y`; every feature column lies in [0, 1]; a non-constant feature column
attains both 0 and 1. -/
def CleanOK (t : CleanTable) : Prop :=
  t.names.getLast? = some "y" ∧
  t.names.count "y" = 1 ∧
  t.names.length = t.cols.length ∧
  ∀ col ∈ t.cols.dropLast,
    (∀ x ∈ col, 0 ≤ x ∧ x ≤ 1) ∧ (nonConstant col → 0 ∈ col ∧ 1 ∈ col)

/-- Number of data rows of a written clean table: the length of its last
(label) column — every column of a table built by `buildClean` from
per-routine extractors has this same length. -/
def rowCount (t : CleanTable) : Nat := (t.cols.getLastD []).length

/-- One parsed record of the abalone raw file (headerless CSV read with
`header=None`; field names are the ones the routine assigns). -/
structure AbaloneRow where
  sex : String
  length : ℚ
  diameter : ℚ
  height : ℚ
  whole_weight : ℚ
  shucked_weigth : ℚ
  viscera_weight : ℚ
  shell_weight : ℚ
  y : ℚ
  deriving DecidableEq

/-- The feature table of `process_abalone` after `get_dummies`: the numeric
columns pass through and the categorical `sex` column becomes one indicator
column per distinct value (pandas orders the passthrough columns first). -/
def abaloneFeats (rows : List AbaloneRow) : List (String × List ℚ) :=
  [("length", rows.map AbaloneRow.length),
   ("diameter", rows.map AbaloneRow.diameter),
   ("height", rows.map AbaloneRow.height),
   ("whole_weight", rows.map AbaloneRow.whole_weight),
   ("shucked_weigth", rows.map AbaloneRow.shucked_weigth),
   ("viscera_weight", rows.map AbaloneRow.viscera_weight),
   ("shell_weight", rows.map AbaloneRow.shell_weight)] ++
  (dummyVals (rows.map AbaloneRow.sex)).map
    (fun v => ("sex_" ++ v, rows.map (fun r => if r.sex = v then 1 else 0)))

/-- process_abalone (lines 20-45): drop `y`, one-hot, scale, re-append `y`. -/
def process_abalone (rows : List AbaloneRow) : CleanTable :=
  buildClean (abaloneFeats rows) (rows.map AbaloneRow.y)

/-- One parsed record of the banknote raw file: four numeric measurements and
the binary class column (1 = genuine). -/
structure BanknoteRow where
  variance : ℚ
  skewness : ℚ
  curtosis : ℚ
  entropy : ℚ
  «class» : ℚ
  deriving DecidableEq

def banknoteFeats (data : List BanknoteRow) : List (String × List ℚ) :=
  [("variance", data.map BanknoteRow.variance),
   ("skewness", data.map BanknoteRow.skewness),
   ("curtosis", data.map BanknoteRow.curtosis),
   ("entropy", data.map BanknoteRow.entropy)]

/-- process_banknote (lines 95-110): `pd.read_csv(input_file, index_col=None)`
uses the default header inference, so the first record of the headerless raw
file is consumed as the header row (`rows.tail` below); the remaining records
give `y = (class == 1)` and the four scaled feature columns. -/
def process_banknote (rows : List BanknoteRow) : CleanTable :=
  buildClean (banknoteFeats rows.tail)
    (rows.tail.map (fun r => if r.«class» = 1 then 1 else 0))

/-- One parsed record of the seismic-bumps arff file, with the attributes of
the pinned `seismic-bumps.arff` (four categorical, fourteen numeric, and the
class), already decoded from bytes to strings as the routine does. -/
structure SeismicRow where
  seismic : String
  seismoacoustic : String
  shift : String
  genergy : ℚ
  gpuls : ℚ
  gdenergy : ℚ
  gdpuls : ℚ
  ghazard : String
  nbumps : ℚ
  nbumps2 : ℚ
  nbumps3 : ℚ
  nbumps4 : ℚ
  nbumps5 : ℚ
  nbumps6 : ℚ
  nbumps7 : ℚ
  nbumps89 : ℚ
  energy : ℚ
  maxenergy : ℚ
  «class» : String
  deriving DecidableEq

/-- The feature table of `process_seismic` after dropping `class` and
one-hot encoding the four categorical columns (numeric passthrough first). -/
def seismicFeats (rows : List SeismicRow) : List (String × List ℚ) :=
  [("genergy", rows.map SeismicRow.genergy),
   ("gpuls", rows.map SeismicRow.gpuls),
   ("gdenergy", rows.map SeismicRow.gdenergy),
   ("gdpuls", rows.map SeismicRow.gdpuls),
   ("nbumps", rows.map SeismicRow.nbumps),
   ("nbumps2", rows.map SeismicRow.nbumps2),
   ("nbumps3", rows.map SeismicRow.nbumps3),
   ("nbumps4", rows.map SeismicRow.nbumps4),
   ("nbumps5", rows.map SeismicRow.nbumps5),
   ("nbumps6", rows.map SeismicRow.nbumps6),
   ("nbumps7", rows.map SeismicRow.nbumps7),
   ("nbumps89", rows.map SeismicRow.nbumps89),
   ("energy", rows.map SeismicRow.energy),
   ("maxenergy", rows.map SeismicRow.maxenergy)] ++
  (dummyVals (rows.map SeismicRow.seismic)).map
    (fun v => ("seismic_" ++ v, rows.map (fun r => if r.seismic = v then 1 else 0))) ++
  (dummyVals (rows.map SeismicRow.seismoacoustic)).map
    (fun v => ("seismoacoustic_" ++ v, rows.map (fun r => if r.seismoacoustic = v then 1 else 0))) ++
  (dummyVals (rows.map SeismicRow.shift)).map
    (fun v => ("shift_" ++ v, rows.map (fun r => if r.shift = v then 1 else 0))) ++
  (dummyVals (rows.map SeismicRow.ghazard)).map
    (fun v => ("ghazard_" ++ v, rows.map (fun r => if r.ghazard = v then 1 else 0)))

/-- process_seismic (lines 190-211): decode, `y = (class == "1")`, one-hot,
scale, append `y`. -/
def process_seismic (rows : List SeismicRow) : CleanTable :=
  buildClean (seismicFeats rows)
    (rows.map (fun r => if r.«class» = "1" then 1 else 0))

/-- One parsed record of the breast-cancer raw file (headerless CSV read with
`header=None, na_values="?"`): the id column, nine feature cells each possibly
missing, and the label column 10. -/
structure WbcRow where
  id : ℚ
  clump_thickness : Option ℚ
  uniformity_cell_size : Option ℚ
  uniformity_cell_shape : Option ℚ
  marginal_adhesion : Option ℚ
  single_epithelial_cell_size : Option ℚ
  bare_nuclei : Option ℚ
  bland_chromatin : Option ℚ
  normal_nucleoli : Option ℚ
  mitoses : Option ℚ
  label : ℚ
  deriving DecidableEq

/-- The feature table of `process_wbc`: columns 1..9 with missing values
imputed to zero (`X[np.isnan(X)] = 0.0`) before scaling. -/
def wbcFeats (rows : List WbcRow) : List (String × List ℚ) :=
  [("clump_thickness", rows.map (fun r => r.clump_thickness.getD 0)),
   ("uniformity_cell_size", rows.map (fun r => r.uniformity_cell_size.getD 0)),
   ("uniformity_cell_shape", rows.map (fun r => r.uniformity_cell_shape.getD 0)),
   ("marginal_adhesion", rows.map (fun r => r.marginal_adhesion.getD 0)),
   ("single_epithelial_cell_size", rows.map (fun r => r.single_epithelial_cell_size.getD 0)),
   ("bare_nuclei", rows.map (fun r => r.bare_nuclei.getD 0)),
   ("bland_chromatin", rows.map (fun r => r.bland_chromatin.getD 0)),
   ("normal_nucleoli", rows.map (fun r => r.normal_nucleoli.getD 0)),
   ("mitoses", rows.map (fun r => r.mitoses.getD 0))]

/-- process_wbc (lines 214-244): impute, scale, label-encode column 10. -/
def process_wbc (rows : List WbcRow) : CleanTable :=
  buildClean (wbcFeats rows) (labelEncode (rows.map WbcRow.label))

/-- One parsed record of the happiness survey file: the label column `D`
followed by the six numeric answers (the routine renames them). -/
structure HappinessRow where
  d : ℚ
  x1 : ℚ
  x2 : ℚ
  x3 : ℚ
  x4 : ℚ
  x5 : ℚ
  x6 : ℚ
  deriving DecidableEq

def happinessFeats (rows : List HappinessRow) : List (String × List ℚ) :=
  [("city_services", rows.map HappinessRow.x1),
   ("housing_cost", rows.map HappinessRow.x2),
   ("school_quality", rows.map HappinessRow.x3),
   ("police_trust", rows.map HappinessRow.x4),
   ("street_maint", rows.map HappinessRow.x5),
   ("community_events", rows.map HappinessRow.x6)]

/-- process_happiness (lines 162-187): `y = (D == 1)`, scale, rename. -/
def process_happiness (rows : List HappinessRow) : CleanTable :=
  buildClean (happinessFeats rows) (rows.map (fun r => if r.d = 1 then 1 else 0))

theorem foldl_min_le_init (l : List ℚ) (a : ℚ) : l.foldl min a ≤ a := by
  induction l generalizing a with
  | nil => exact le_refl a
  | cons x xs ih => exact le_trans (ih (min a x)) (min_le_left a x)

theorem foldl_min_le_mem {l : List ℚ} {b : ℚ} (h : b ∈ l) (a : ℚ) : l.foldl min a ≤ b := by
  induction l generalizing a with
  | nil => cases h
  | cons x xs ih =>
      rcases List.mem_cons.1 h with rfl | hm
      · exact le_trans (foldl_min_le_init xs (min a b)) (min_le_right a b)
      · exact ih hm (min a x)

theorem foldl_min_cases (l : List ℚ) (a : ℚ) : l.foldl min a = a ∨ l.foldl min a ∈ l := by
  induction l generalizing a with
  | nil => exact Or.inl rfl
  | cons x xs ih =>
      rcases ih (min a x) with h | h
      · rcases min_choice a x with h2 | h2
        · exact Or.inl (by rw [List.foldl_cons, h, h2])
        · exact Or.inr (by rw [List.foldl_cons, h, h2]; exact List.mem_cons_self x xs)
      · exact Or.inr (List.mem_cons_of_mem x h)

theorem init_le_foldl_max (l : List ℚ) (a : ℚ) : a ≤ l.foldl max a := by
  induction l generalizing a with
  | nil => exact le_refl a
  | cons x xs ih => exact le_trans (le_max_left a x) (ih (max a x))

theorem mem_le_foldl_max {l : List ℚ} {b : ℚ} (h : b ∈ l) (a : ℚ) : b ≤ l.foldl max a := by
  induction l generalizing a with
  | nil => cases h
  | cons x xs ih =>
      rcases List.mem_cons.1 h with rfl | hm
      · exact le_trans (le_max_right a b) (init_le_foldl_max xs (max a b))
      · exact ih hm (max a x)

theorem foldl_max_cases (l : List ℚ) (a : ℚ) : l.foldl max a = a ∨ l.foldl max a ∈ l := by
  induction l generalizing a with
  | nil => exact Or.inl rfl
  | cons x xs ih =>
      rcases ih (max a x) with h | h
      · rcases max_choice a x with h2 | h2
        · exact Or.inl (by rw [List.foldl_cons, h, h2])
        · exact Or.inr (by rw [List.foldl_cons, h, h2]; exact List.mem_cons_self x xs)
      · exact Or.inr (List.mem_cons_of_mem x h)

theorem colMin_le_of_mem {l : List ℚ} {x : ℚ} (h : x ∈ l) : colMin l ≤ x := by
  cases l with
  | nil => cases h
  | cons a xs =>
      rcases List.mem_cons.1 h with rfl | hm
      · exact foldl_min_le_init xs x
      · exact foldl_min_le_mem hm a

theorem le_colMax_of_mem {l : List ℚ} {x : ℚ} (h : x ∈ l) : x ≤ colMax l := by
  cases l with
  | nil => cases h
  | cons a xs =>
      rcases List.mem_cons.1 h with rfl | hm
      · exact init_le_foldl_max xs x
      · exact mem_le_foldl_max hm a

theorem colMin_mem {l : List ℚ} (h : l ≠ []) : colMin l ∈ l := by
  cases l with
  | nil => exact absurd rfl h
  | cons a xs =>
      rcases foldl_min_cases xs a with h2 | h2
      · rw [colMin, h2]; exact List.mem_cons_self a xs
      · exact List.mem_cons_of_mem a h2

theorem colMax_mem {l : List ℚ} (h : l ≠ []) : colMax l ∈ l := by
  cases l with
  | nil => exact absurd rfl h
  | cons a xs =>
      rcases foldl_max_cases xs a with h2 | h2
      · rw [colMax, h2]; exact List.mem_cons_self a xs
      · exact List.mem_cons_of_mem a h2

/-- Every value of a min-max scaled column lies in [0, 1]. -/
theorem minmaxScale_bounds {col : List ℚ} {v : ℚ} (h : v ∈ minmaxScale col) :
    0 ≤ v ∧ v ≤ 1 := by
  rcases List.mem_map.1 h with ⟨x, hx, rfl⟩
  have hmin := colMin_le_of_mem hx
  have hmax := le_colMax_of_mem hx
  by_cases hc : colMax col = colMin col
  · have hxm : x = colMin col := le_antisymm (hc ▸ hmax) hmin
    rw [if_pos hc, hxm, sub_self, zero_mul]
    exact ⟨le_refl 0, zero_le_one⟩
  · have hlt : colMin col < colMax col :=
      lt_of_le_of_ne (le_trans hmin hmax) (Ne.symm hc)
    rw [if_neg hc, ← div_eq_mul_inv]
    constructor
    · exact div_nonneg (sub_nonneg.2 hmin) (sub_nonneg.2 (le_of_lt hlt))
    · rw [div_le_one (sub_pos.2 hlt)]
      exact sub_le_sub_right hmax _

/-- A non-constant min-max scaled column attains both 0 and 1. -/
theorem minmaxScale_attains {col : List ℚ}
    (h : ∃ a ∈ minmaxScale col, ∃ b ∈ minmaxScale col, a ≠ b) :
    0 ∈ minmaxScale col ∧ 1 ∈ minmaxScale col := by
  rcases h with ⟨a, ha, b, hb, hab⟩
  rcases List.mem_map.1 ha with ⟨xa, hxa, rfl⟩
  rcases List.mem_map.1 hb with ⟨xb, hxb, rfl⟩
  have hne : col ≠ [] := fun hnil => by rw [hnil] at hxa; cases hxa
  by_cases hc : colMax col = colMin col
  · exfalso
    have hea : xa = colMin col :=
      le_antisymm (hc ▸ le_colMax_of_mem hxa) (colMin_le_of_mem hxa)
    have heb : xb = colMin col :=
      le_antisymm (hc ▸ le_colMax_of_mem hxb) (colMin_le_of_mem hxb)
    exact hab (by rw [hea, heb])
  · constructor
    · refine List.mem_map.2 ⟨colMin col, colMin_mem hne, ?_⟩
      rw [sub_self, zero_mul]
    · refine List.mem_map.2 ⟨colMax col, colMax_mem hne, ?_⟩
      rw [if_neg hc, ← div_eq_mul_inv, div_self (sub_ne_zero.2 hc)]

/-- A dummy-column name, built by prefixing the original column's name, is
never the single letter `y`. -/
theorem prefixed_ne (p v : String) (hp : 2 ≤ p.length) : p ++ v ≠ "y" := by
  intro h
  have hl := congrArg String.length h
  rw [String.length_append] at hl
  have hy : ("y" : String).length = 1 := rfl
  omega

/-- Any table assembled by `buildClean` from feature columns not named `y`
satisfies the clean-output contract. -/
theorem buildClean_ok (feats : List (String × List ℚ)) (y : List ℚ)
    (h : "y" ∉ feats.map Prod.fst) : CleanOK (buildClean feats y) := by
  refine ⟨?_, ?_, ?_, ?_⟩
  · show (feats.map Prod.fst ++ ["y"]).getLast? = some "y"
    exact List.getLast?_concat _
  · show (feats.map Prod.fst ++ ["y"]).count "y" = 1
    rw [List.count_append, List.count_eq_zero.2 h]
    rfl
  · simp [buildClean]
  · intro col hcol
    have hcol2 : col ∈ (feats.map (fun p => minmaxScale p.2) ++ [y]).dropLast := hcol
    rw [List.dropLast_concat] at hcol2
    rcases List.mem_map.1 hcol2 with ⟨p, _, rfl⟩
    exact ⟨fun x hx => minmaxScale_bounds hx, minmaxScale_attains⟩

theorem abalone_no_y (rows : List AbaloneRow) :
    "y" ∉ (abaloneFeats rows).map Prod.fst := by
  intro hmem
  rw [abaloneFeats, List.map_append, List.mem_append] at hmem
  rcases hmem with h | h
  · simp at h
  · rw [List.map_map] at h
    rcases List.mem_map.1 h with ⟨v, _, he⟩
    exact prefixed_ne "sex_" v (by decide) he

theorem seismic_no_y (rows : List SeismicRow) :
    "y" ∉ (seismicFeats rows).map Prod.fst := by
  intro hmem
  rw [seismicFeats] at hmem
  rw [List.map_append, List.mem_append] at hmem
  rcases hmem with hmem | h4
  rotate_left
  · rw [List.map_map] at h4
    rcases List.mem_map.1 h4 with ⟨v, _, he⟩
    exact prefixed_ne "ghazard_" v (by decide) he
  rw [List.map_append, List.mem_append] at hmem
  rcases hmem with hmem | h3
  rotate_left
  · rw [List.map_map] at h3
    rcases List.mem_map.1 h3 with ⟨v, _, he⟩
    exact prefixed_ne "shift_" v (by decide) he
  rw [List.map_append, List.mem_append] at hmem
  rcases hmem with hmem | h2
  rotate_left
  · rw [List.map_map] at h2
    rcases List.mem_map.1 h2 with ⟨v, _, he⟩
    exact prefixed_ne "seismoacoustic_" v (by decide) he
  rw [List.map_append, List.mem_append] at hmem
  rcases hmem with h0 | h1
  · simp at h0
  · rw [List.map_map] at h1
    rcases List.mem_map.1 h1 with ⟨v, _, he⟩
    exact prefixed_ne "seismic_" v (by decide) he

theorem banknote_no_y (data : List BanknoteRow) :
    "y" ∉ (banknoteFeats data).map Prod.fst := by
  simp [banknoteFeats]

theorem wbc_no_y (rows : List WbcRow) :
    "y" ∉ (wbcFeats rows).map Prod.fst := by
  simp [wbcFeats]

theorem happiness_no_y (rows : List HappinessRow) :
    "y" ∉ (happinessFeats rows).map Prod.fst := by
  simp [happinessFeats]

/-- Sanity anchor: the embedded SHA-256 reproduces the FIPS 180 test vector
for the message "abc". -/
theorem sha256hex_abc :
    sha256hex [97, 98, 99] =
      "ba7816bf8f01cfea414140de5dae2223b00361a396177a9cb410ff61f20015ad" := by
  decide

/-- Sanity anchor: the embedded SHA-256 reproduces the digest of the empty
message. -/
theorem sha256hex_empty :
    sha256hex [] =
      "e3b0c44298fc1c149afbf4c8996fb92427ae41e4649b934ca495991b7852b855" := by
  decide

/-- C1 counterexample: when the raw file is already present — here with bytes
whose digest does not even equal the record's pinned hash — `process()` writes
the clean file in a trace that contains no digest computation at all, so the
write is not preceded by a digest confirmation. -/
theorem clean_written_without_any_digest_check :
    fsWithRaw demoDataset.raw_file_path = some [1, 2, 3] ∧
    sha256hex [1, 2, 3] ≠ demoDataset.hash ∧
    Event.wroteClean demoDataset.clean_file_path ∈
      (Dataset.processMain demoDataset fsWithRaw httpOk).2.2 ∧
    (∀ b, Event.hashChecked b ∉ (Dataset.processMain demoDataset fsWithRaw httpOk).2.2) ∧
    okTrace false (Dataset.processMain demoDataset fsWithRaw httpOk).2.2 = false := by
  refine ⟨by decide, by decide, by decide, by decide, by decide⟩

/-- C1 (amended): in every execution of `process()` that starts with the raw
file absent, any clean-file write in the trace is preceded by a successful
digest confirmation. -/
theorem fresh_process_confirms_before_clean_write (d : Dataset) (fs : Fs)
    (http : String → HttpResponse) (h : fs d.raw_file_path = none) :
    okTrace false (Dataset.processMain d fs http).2.2 = true := by
  rcases hr : http d.url with ⟨cl, body⟩
  cases cl with
  | none =>
      simp [Dataset.processMain, Dataset.process, Dataset.verify_downloaded,
        Dataset.download_file, Dataset.check_hash, h, hr, okTrace]
  | some n =>
      by_cases hh : sha256hex body = d.hash
      all_goals simp [Dataset.processMain, Dataset.process, Dataset.verify_downloaded,
        Dataset.download_file, Dataset.check_hash, h, hr, hh, okTrace]

/-- Witness for the amended C1 at a concrete record, filesystem and server. -/
theorem fresh_process_confirms_before_clean_write_witness :
    fsEmpty demoDataset.raw_file_path = none ∧
    okTrace false (Dataset.processMain demoDataset fsEmpty httpOk).2.2 = true :=
  ⟨rfl, fresh_process_confirms_before_clean_write demoDataset fsEmpty httpOk rfl⟩

/-- C2: a fresh download whose digest differs from the pinned hash makes
`process()` exit with status 1; the dataset name and its source url appear in
printed diagnostics, and the clean file location is left untouched. -/
theorem digest_mismatch_exits_nonzero (d : Dataset) (fs : Fs)
    (http : String → HttpResponse) (n : Nat)
    (hne : d.clean_file_path ≠ d.raw_file_path)
    (h : fs d.raw_file_path = none)
    (hcl : (http d.url).contentLength = some n)
    (hh : sha256hex (http d.url).body ≠ d.hash) :
    (Dataset.processMain d fs http).1 = .exited 1 ∧
    (Dataset.processMain d fs http).2.1 d.clean_file_path = fs d.clean_file_path ∧
    Event.printed (missingMsg d.name) ∈ (Dataset.processMain d fs http).2.2 ∧
    Event.printed (hashMismatchMsg d.url) ∈ (Dataset.processMain d fs http).2.2 ∧
    ∀ p, Event.wroteClean p ∉ (Dataset.processMain d fs http).2.2 := by
  rcases hr : http d.url with ⟨cl, body⟩
  rw [hr] at hcl hh
  simp only at hcl hh
  subst hcl
  simp [Dataset.processMain, Dataset.process, Dataset.verify_downloaded,
    Dataset.download_file, Dataset.check_hash, h, hr, hh, hne]

/-- Witness for C2: the demo record against a server whose 3-byte body cannot
hash to the pinned digest. -/
theorem digest_mismatch_exits_nonzero_witness :
    sha256hex (httpOk demoDataset.url).body ≠ demoDataset.hash ∧
    (Dataset.processMain demoDataset fsEmpty httpOk).1 = .exited 1 ∧
    (Dataset.processMain demoDataset fsEmpty httpOk).2.1 demoDataset.clean_file_path =
      fsEmpty demoDataset.clean_file_path := by
  have hh : sha256hex (httpOk demoDataset.url).body ≠ demoDataset.hash := by decide
  have h := digest_mismatch_exits_nonzero demoDataset fsEmpty httpOk 3 (by decide) rfl rfl hh
  exact ⟨hh, h.1, h.2.1⟩

/-- C3: when the raw file is already present, `process()` performs no network
request at all, yet re-runs the transformation and rewrites the clean output
from the raw content. -/
theorem raw_present_skips_download_and_retransforms (d : Dataset) (fs : Fs)
    (http : String → HttpResponse) (c : List Nat)
    (h : fs d.raw_file_path = some c) :
    (∀ u, Event.download u ∉ (Dataset.processMain d fs http).2.2) ∧
    (Dataset.processMain d fs http).1 = .ok ∧
    (Dataset.processMain d fs http).2.1 d.clean_file_path =
      some (d.processing_function c) ∧
    Event.wroteClean d.clean_file_path ∈ (Dataset.processMain d fs http).2.2 := by
  simp [Dataset.processMain, Dataset.process, Dataset.verify_downloaded, h]

/-- Witness for C3 at the demo record with its raw file in place. -/
theorem raw_present_skips_download_and_retransforms_witness :
    fsWithRaw demoDataset.raw_file_path = some [1, 2, 3] ∧
    (∀ u, Event.download u ∉ (Dataset.processMain demoDataset fsWithRaw httpOk).2.2) ∧
    (Dataset.processMain demoDataset fsWithRaw httpOk).2.1 demoDataset.clean_file_path =
      some (demoDataset.processing_function [1, 2, 3]) := by
  have h := raw_present_skips_download_and_retransforms demoDataset fsWithRaw httpOk
    [1, 2, 3] (by decide)
  exact ⟨by decide, h.1, h.2.2.1⟩

/-- C4: a present raw file is never rewritten by `process()`, and the skip
decision looks at presence only — no download, no digest computation, no raw
write occur, whatever the raw content (empty, stale or corrupt alike). -/
theorem raw_never_overwritten (d : Dataset) (fs : Fs) (http : String → HttpResponse)
    (c : List Nat) (hne : d.raw_file_path ≠ d.clean_file_path)
    (h : fs d.raw_file_path = some c) :
    (Dataset.processMain d fs http).2.1 d.raw_file_path = some c ∧
    (∀ u, Event.download u ∉ (Dataset.processMain d fs http).2.2) ∧
    (∀ b, Event.hashChecked b ∉ (Dataset.processMain d fs http).2.2) ∧
    Event.wroteRaw d.raw_file_path ∉ (Dataset.processMain d fs http).2.2 := by
  simp [Dataset.processMain, Dataset.process, Dataset.verify_downloaded, h, hne]

/-- Witness for C4 at the demo record with its raw file in place. -/
theorem raw_never_overwritten_witness :
    demoDataset.raw_file_path ≠ demoDataset.clean_file_path ∧
    fsWithRaw demoDataset.raw_file_path = some [1, 2, 3] ∧
    (Dataset.processMain demoDataset fsWithRaw httpOk).2.1 demoDataset.raw_file_path =
      some [1, 2, 3] := by
  have h := raw_never_overwritten demoDataset fsWithRaw httpOk [1, 2, 3]
    (by decide) (by decide)
  exact ⟨by decide, by decide, h.1⟩

/-- C5: the integrity check is reflexive — a file always matches its own
digest — and returns false whenever the computed digest differs from the
expected string, whatever the content (truncations and re-encodings included,
since any content with a differing digest is covered). -/
theorem matches_reflexive_and_detects_mismatch :
    (∀ content : List Nat, «matches» content (digest_of content) = true) ∧
    (∀ (content : List Nat) (expected : String),
      digest_of content ≠ expected → «matches» content expected = false) := by
  constructor
  · intro content
    simp [«matches»]
  · intro content expected h
    simp [«matches», h]

/-- Witness for C5 on a concrete 3-byte file and a wrong expected digest. -/
theorem matches_reflexive_and_detects_mismatch_witness :
    «matches» [1, 2, 3] (digest_of [1, 2, 3]) = true ∧
    digest_of [1, 2, 3] ≠ "" ∧ «matches» [1, 2, 3] "" = false := by
  have h : digest_of [1, 2, 3] ≠ "" := by decide
  exact ⟨matches_reflexive_and_detects_mismatch.1 [1, 2, 3], h,
    matches_reflexive_and_detects_mismatch.2 [1, 2, 3] "" h⟩

/-- C6: for each modelled transformation routine (abalone and seismic, the
cited ones, plus banknote, wbc and happiness) and any raw input, the clean
table has exactly one label column named `y`, placed last; every feature
column lies in [0, 1]; and every non-constant feature column attains both 0
and 1. -/
theorem clean_tables_scaled_with_single_label :
    (∀ rows : List AbaloneRow, CleanOK (process_abalone rows)) ∧
    (∀ rows : List SeismicRow, CleanOK (process_seismic rows)) ∧
    (∀ rows : List BanknoteRow, CleanOK (process_banknote rows)) ∧
    (∀ rows : List WbcRow, CleanOK (process_wbc rows)) ∧
    (∀ rows : List HappinessRow, CleanOK (process_happiness rows)) :=
  ⟨fun rows => buildClean_ok _ _ (abalone_no_y rows),
   fun rows => buildClean_ok _ _ (seismic_no_y rows),
   fun rows => buildClean_ok _ _ (banknote_no_y rows.tail),
   fun rows => buildClean_ok _ _ (wbc_no_y rows),
   fun rows => buildClean_ok _ _ (happiness_no_y rows)⟩

/-- Witness for C6: the contract holds of a concrete two-record abalone run. -/
theorem clean_tables_scaled_with_single_label_witness :
    CleanOK (process_abalone [⟨"M", 1, 2, 3, 4, 5, 6, 7, 9⟩, ⟨"F", 2, 3, 4, 5, 6, 7, 8, 11⟩]) :=
  clean_tables_scaled_with_single_label.1
    [⟨"M", 1, 2, 3, 4, 5, 6, 7, 9⟩, ⟨"F", 2, 3, 4, 5, 6, 7, 8, 11⟩]

/-- C7 (failing input): a three-record banknote raw file yields a clean table
of two rows, because `pd.read_csv` without `header=None` consumes the first
record as the header line. -/
theorem banknote_first_record_lost :
    rowCount (process_banknote [⟨1, 2, 3, 4, 1⟩, ⟨5, 6, 7, 8, 0⟩, ⟨9, 10, 11, 12, 1⟩]) = 2 ∧
    ([⟨1, 2, 3, 4, 1⟩, ⟨5, 6, 7, 8, 0⟩, ⟨9, 10, 11, 12, 1⟩] : List BanknoteRow).length = 3 :=
  ⟨by decide, by decide⟩

/-- C8 (failing input): with raw classes [1, 0] the clean `y` column is [0] —
the first record (class 1) is consumed as the header, so `y` is not 1 exactly
where the raw class column was 1. -/
theorem banknote_label_misaligned :
    (process_banknote [⟨1, 2, 3, 4, 1⟩, ⟨5, 6, 7, 8, 0⟩]).cols.getLastD [] = [0] ∧
    ([⟨1, 2, 3, 4, 1⟩, ⟨5, 6, 7, 8, 0⟩] : List BanknoteRow).map BanknoteRow.«class» = [1, 0] :=
  ⟨by decide, by decide⟩

/-- C9: when the server omits the Content-Length header, `process()` aborts
with the TypeError raised by `int(None)` before the destination file is
opened: the filesystem is unchanged and nothing is written. -/
theorem missing_content_length_aborts (d : Dataset) (fs : Fs)
    (http : String → HttpResponse)
    (h : fs d.raw_file_path = none) (hcl : (http d.url).contentLength = none) :
    (Dataset.processMain d fs http).1 = .error "TypeError" ∧
    (∀ p, (Dataset.processMain d fs http).2.1 p = fs p) ∧
    (∀ p, Event.wroteRaw p ∉ (Dataset.processMain d fs http).2.2) ∧
    (∀ p, Event.wroteClean p ∉ (Dataset.processMain d fs http).2.2) := by
  simp [Dataset.processMain, Dataset.process, Dataset.verify_downloaded,
    Dataset.download_file, h, hcl]

/-- Witness for C9 at the demo record against a header-less server. -/
theorem missing_content_length_aborts_witness :
    fsEmpty demoDataset.raw_file_path = none ∧
    (httpNoLength demoDataset.url).contentLength = none ∧
    (Dataset.processMain demoDataset fsEmpty httpNoLength).1 = .error "TypeError" := by
  have h := missing_content_length_aborts demoDataset fsEmpty httpNoLength rfl rfl
  exact ⟨rfl, rfl, h.1⟩

/-- C10: the acquisition-skip test and the mismatch diagnostic read the
module-global `dataset` (here `g`), not the receiver: with the global's raw
file present no download happens at all (whatever the receiver's own state);
with it absent the receiver's url is downloaded and the printed messages name
the global record — including the mismatch diagnostic, which cites `g.url`. -/
theorem global_dataset_capture (d g : Dataset) (fs : Fs) (http : String → HttpResponse) :
    (∀ c, fs g.raw_file_path = some c →
      ∀ u, Event.download u ∉ (Dataset.process d g fs http).2.2) ∧
    (fs g.raw_file_path = none →
      Event.download d.url ∈ (Dataset.process d g fs http).2.2 ∧
      Event.printed (missingMsg g.name) ∈ (Dataset.process d g fs http).2.2) ∧
    (∀ n, fs g.raw_file_path = none → (http d.url).contentLength = some n →
      sha256hex (http d.url).body ≠ d.hash →
      Event.printed (hashMismatchMsg g.url) ∈ (Dataset.process d g fs http).2.2) := by
  refine ⟨?_, ?_, ?_⟩
  · intro c hc u
    cases hd : fs d.raw_file_path with
    | none => simp [Dataset.process, Dataset.verify_downloaded, hc, hd]
    | some content => simp [Dataset.process, Dataset.verify_downloaded, hc, hd]
  · intro hn
    rcases hr : http d.url with ⟨cl, body⟩
    cases cl with
    | none =>
        constructor <;>
          simp [Dataset.process, Dataset.verify_downloaded, Dataset.download_file, hn, hr]
    | some m =>
        by_cases hh : sha256hex body = d.hash
        all_goals constructor <;>
          simp [Dataset.process, Dataset.verify_downloaded, Dataset.download_file,
            Dataset.check_hash, hn, hr, hh]
  · intro n hn hcl hh
    rcases hr : http d.url with ⟨cl, body⟩
    rw [hr] at hcl hh
    simp only at hcl hh
    subst hcl
    simp [Dataset.process, Dataset.verify_downloaded, Dataset.download_file,
      Dataset.check_hash, hn, hr, hh]

/-- Witness for C10: with the global bound to the abalone record (raw absent)
and the receiver the banknote record (raw present), the banknote url is
downloaded anyway and the printed message names the abalone record. -/
theorem global_dataset_capture_witness :
    Event.download demoDataset.url ∈
      (Dataset.process demoDataset otherDataset fsWithRaw httpOk).2.2 ∧
    Event.printed (missingMsg otherDataset.name) ∈
      (Dataset.process demoDataset otherDataset fsWithRaw httpOk).2.2 :=
  (global_dataset_capture demoDataset otherDataset fsWithRaw httpOk).2.1 (by decide)
